import Mathlib

/-!
Verification development for the token-usage metering and quota-enforcement
core of the `ac-multitenant` repository.

The embedded components are:
* the DynamoDB stream Aggregator
  (`src/lambda_functions/dynamodb_stream_processor/handler.py`),
* the Quota Gate (`check_token_limit` and the admission slice of
  `lambda_handler` in `src/lambda_functions/invoke_agent/handler.py`),
* Limit Administration (`validate_token_limit` and `lambda_handler` in
  `src/lambda_functions/set_tenant_limit/handler.py`),
* Usage Event Ingestion (`src/lambda_functions/sqs_to_dynamodb/handler.py`)
  together with the dead-letter queue configuration in
  `src/stacks/messaging.py`.

Modelling conventions: DynamoDB numbers (Python `Decimal`) are embedded as
`Int` for the token counters and as `ℚ` for the cost accumulators (all cost
arithmetic performed by the handlers is exact in `Decimal`, so `ℚ` captures
it faithfully); a DynamoDB attribute that is absent is represented by `0`
for counters (matching the `item.get(..., 0)` / `ADD`-starts-at-zero
semantics) and by `Option.none` for `token_limit`; a table row that does not
exist is `Option.none`. External effects (the `get_item` read, the
`update_item` / `put_item` writes) are modelled by explicit state passing
plus parameters describing which calls raise.
-/

/-- One DynamoDB stream event tag (`record['eventName']`). -/
inductive EventName
  | INSERT
  | MODIFY
  | REMOVE
deriving DecidableEq, Repr

/-- The new image of a UsageEvent row carried by an `INSERT` stream record,
with the fields the stream processor reads.  `tenant_id := Option.none`
models an absent attribute (the handler then defaults it to `"default"`);
numeric attributes are already converted by the handler's `int(...)`. -/
structure NewImage where
  id : String
  timestamp : String
  tenant_id : Option String
  input_tokens : Int
  output_tokens : Int
  total_tokens : Int
  user_message : String
deriving DecidableEq, Repr

/-- One DynamoDB stream record as seen by the stream processor. -/
structure StreamRecord where
  eventName : EventName
  newImage : NewImage
deriving DecidableEq, Repr

/-- The per-tenant in-memory accumulator built by the stream processor
(`tenant_aggregations[tenant_id]`). -/
structure TenantSum where
  input_tokens : Int
  output_tokens : Int
  total_tokens : Int
  request_count : Int
deriving DecidableEq, Repr

instance : Zero TenantSum := ⟨⟨0, 0, 0, 0⟩⟩

instance : Add TenantSum :=
  ⟨fun a b => ⟨a.input_tokens + b.input_tokens, a.output_tokens + b.output_tokens,
    a.total_tokens + b.total_tokens, a.request_count + b.request_count⟩⟩

theorem TenantSum.add_def (a b : TenantSum) :
    a + b = ⟨a.input_tokens + b.input_tokens, a.output_tokens + b.output_tokens,
      a.total_tokens + b.total_tokens, a.request_count + b.request_count⟩ := rfl

theorem TenantSum.zero_def : (0 : TenantSum) = ⟨0, 0, 0, 0⟩ := rfl

instance : AddCommMonoid TenantSum where
  add_assoc a b c := by
    cases a; cases b; cases c
    simp only [TenantSum.add_def, TenantSum.mk.injEq]
    refine ⟨?_, ?_, ?_, ?_⟩ <;> ring
  zero_add a := by
    cases a
    simp only [TenantSum.zero_def, TenantSum.add_def, TenantSum.mk.injEq]
    refine ⟨?_, ?_, ?_, ?_⟩ <;> ring
  add_zero a := by
    cases a
    simp only [TenantSum.zero_def, TenantSum.add_def, TenantSum.mk.injEq]
    refine ⟨?_, ?_, ?_, ?_⟩ <;> ring
  add_comm a b := by
    cases a; cases b
    simp only [TenantSum.add_def, TenantSum.mk.injEq]
    refine ⟨?_, ?_, ?_, ?_⟩ <;> ring
  nsmul := nsmulRec

/-- One TenantAggregate row.  Counter attributes that are absent on the
stored row are represented as `0`, an absent `token_limit` as `Option.none`,
an absent `tenant_id` as `""`. -/
structure TenantAgg where
  input_tokens : Int
  output_tokens : Int
  total_tokens : Int
  request_count : Int
  input_cost : ℚ
  output_cost : ℚ
  total_cost : ℚ
  token_limit : Option Int
  tenant_id : String
deriving DecidableEq, Repr

/-- The all-absent row: what DynamoDB's `ADD` starts from when the row does
not exist yet. -/
def zeroRow : TenantAgg := ⟨0, 0, 0, 0, 0, 0, 0, Option.none, ""⟩

/-- The aggregation table: a partial map from `aggregation_key` to rows. -/
def AggState : Type := String → Option TenantAgg

/-- The empty aggregation table. -/
def emptyState : AggState := fun _ => Option.none

/-- `aggregation_key = f"tenant:{tenant_id}"`. -/
def aggKey (tenant_id : String) : String := "tenant:" ++ tenant_id

/-- Whether a stream record is tagged `INSERT`. -/
def isInsertB (r : StreamRecord) : Bool := r.eventName == EventName.INSERT

/-- The tenant a stream record belongs to
(`new_item.get('tenant_id', {}).get('S', 'default')`). -/
def tenantOf (r : StreamRecord) : String := r.newImage.tenant_id.getD "default"

/-- The contribution of one `INSERT` record to its tenant's in-memory sums:
the three token counters plus a request count of 1. -/
def recInc (r : StreamRecord) : TenantSum :=
  ⟨r.newImage.input_tokens, r.newImage.output_tokens, r.newImage.total_tokens, 1⟩

/-- Add `inc` to tenant `t`'s entry of the in-memory accumulator, creating
the entry (as in `tenant_aggregations[tenant_id] = {...0...}` followed by
`+=`) when it is absent. -/
def upsertAdd : List (String × TenantSum) → String → TenantSum → List (String × TenantSum)
  | [], t, inc => [(t, inc)]
  | (t', s') :: rest, t, inc =>
      if t' == t then (t', s' + inc) :: rest else (t', s') :: upsertAdd rest t inc

/-- One iteration of the record loop of the stream processor: `INSERT`
records are folded into the per-tenant accumulator, `MODIFY` and `REMOVE`
records are only logged. -/
def processRecord (acc : List (String × TenantSum)) (r : StreamRecord) :
    List (String × TenantSum) :=
  if isInsertB r then upsertAdd acc (tenantOf r) (recInc r) else acc

/-- The in-memory `tenant_aggregations` dictionary built from a batch,
as an insertion-ordered association list. -/
def tenantAggregations (batch : List StreamRecord) : List (String × TenantSum) :=
  batch.foldl processRecord []

/-- One `update_item` call of the stream processor: at the row `aggKey t`,
`ADD` the four counters, `ADD` the cost increments
(`Decimal(n) * Decimal('0.003') / Decimal('1000')` for input and
`Decimal(n) * Decimal('0.015') / Decimal('1000')` for output, exact in ℚ),
and `SET tenant_id`. -/
def applyUpdate (s : AggState) (t : String) (agg : TenantSum) : AggState :=
  let input_cost_increment : ℚ := (agg.input_tokens : ℚ) * (3 / 1000) / 1000
  let output_cost_increment : ℚ := (agg.output_tokens : ℚ) * (15 / 1000) / 1000
  let total_cost_increment : ℚ := input_cost_increment + output_cost_increment
  fun k =>
    if k = aggKey t then
      let row := (s (aggKey t)).getD zeroRow
      some { row with
        input_tokens := row.input_tokens + agg.input_tokens
        output_tokens := row.output_tokens + agg.output_tokens
        total_tokens := row.total_tokens + agg.total_tokens
        request_count := row.request_count + agg.request_count
        input_cost := row.input_cost + input_cost_increment
        output_cost := row.output_cost + output_cost_increment
        total_cost := row.total_cost + total_cost_increment
        tenant_id := t }
    else s k

/-- Apply a list of per-tenant updates unconditionally (the failure-free
update loop). -/
def applyList (s : AggState) (l : List (String × TenantSum)) : AggState :=
  l.foldl (fun s p => applyUpdate s p.1 p.2) s

/-- The update loop of the stream processor with explicit failures: `fails t`
models `update_item` raising for tenant `t`.  The loop stops at the first
failure (the Python `except ... raise`), keeping the updates already
applied, and reports the failing tenant. -/
def runUpdates (s : AggState) (l : List (String × TenantSum)) (fails : String → Bool) :
    AggState × Option String :=
  match l with
  | [] => (s, Option.none)
  | (t, agg) :: rest =>
      if fails t then (s, some t)
      else runUpdates (applyUpdate s t agg) rest fails

/-- No `update_item` call fails. -/
def noFail : String → Bool := fun _ => false

/-- The whole `lambda_handler` of the stream processor: build the per-tenant
sums, run the update loop, and either propagate the first error or return
the HTTP 200 summary response. -/
def stream_handler (s : AggState) (batch : List StreamRecord) (fails : String → Bool) :
    AggState × Except String (Nat × String) :=
  match runUpdates s (tenantAggregations batch) fails with
  | (s2, some t) => (s2, Except.error t)
  | (s2, Option.none) =>
      (s2, Except.ok (200, "Processed " ++ toString batch.length ++ " records for "
        ++ toString (tenantAggregations batch).length ++ " tenant(s)"))

/-- A sequence of Aggregator invocations, one failure-free batch each. -/
def processBatches (s : AggState) (batches : List (List StreamRecord)) : AggState :=
  batches.foldl (fun s b => (stream_handler s b noFail).1) s

/-- The sum of the contributions of all `INSERT` records of tenant `t` in a
batch. -/
def sumFor (batch : List StreamRecord) (t : String) : TenantSum :=
  ((batch.filter (fun r => isInsertB r && (tenantOf r == t))).map recInc).sum

/-- The sum of the accumulator entries recorded for tenant `t`. -/
def entriesSum (l : List (String × TenantSum)) (t : String) : TenantSum :=
  ((l.filter (fun p => p.1 == t)).map Prod.snd).sum

/-- The observable numeric content of a row: the four counters and the three
cost accumulators, with an absent row reading as all zeros. -/
def measOf : Option TenantAgg → TenantSum × ℚ × ℚ × ℚ
  | Option.none => (0, 0, 0, 0)
  | some r => (⟨r.input_tokens, r.output_tokens, r.total_tokens, r.request_count⟩,
      r.input_cost, r.output_cost, r.total_cost)

/-- The numeric increment one `update_item` call applies, as a function of
the per-tenant batch sums. -/
def measInc (agg : TenantSum) : TenantSum × ℚ × ℚ × ℚ :=
  (agg, (agg.input_tokens : ℚ) * (3 / 1000) / 1000,
    (agg.output_tokens : ℚ) * (15 / 1000) / 1000,
    (agg.input_tokens : ℚ) * (3 / 1000) / 1000 + (agg.output_tokens : ℚ) * (15 / 1000) / 1000)

/-- Usage/limit information the quota gate returns alongside its decision;
each field is present only when the corresponding dictionary key is set. -/
structure UsageInfo where
  tenant_id : Option String
  total_tokens : Option Int
  token_limit : Option Int
deriving DecidableEq, Repr

/-- The empty usage-info dictionary `{}`. -/
def emptyUsage : UsageInfo := ⟨Option.none, Option.none, Option.none⟩

/-- `check_token_limit` of the invoke-agent handler.  `tableConfigured`
models `get_aggregation_table()` returning a table (the environment variable
is set); `readResult` is the outcome of `table.get_item` for the tenant's
row: an exception, no item, or the item. -/
def check_token_limit (tenant_id : String) (tableConfigured : Bool)
    (readResult : Except String (Option TenantAgg)) : Bool × UsageInfo :=
  if !tableConfigured then (true, emptyUsage)
  else
    match readResult with
    | Except.error _ => (true, emptyUsage)
    | Except.ok Option.none => (true, emptyUsage)
    | Except.ok (some item) =>
        match item.token_limit with
        | Option.none => (true, { emptyUsage with total_tokens := some item.total_tokens })
        | some token_limit =>
            let total_tokens := item.total_tokens
            let usage_info : UsageInfo := ⟨some tenant_id, some total_tokens, some token_limit⟩
            if total_tokens ≥ token_limit then (false, usage_info)
            else (true, usage_info)

/-- The admission decision of the invoke-agent `lambda_handler`: 400 when
`agentId` or `inputText` is falsy, 429 when a truthy `tenantId` fails the
quota check, otherwise proceed to invoke the agent. -/
inductive AdmitDecision
  | badRequest
  | limitExceeded (tenant_id : String) (token_limit : Option Int) (current_usage : Option Int)
  | invokeAgent
deriving DecidableEq, Repr

/-- Python truthiness of an optional string: absent and `""` are falsy. -/
def truthyStr : Option String → Bool
  | Option.none => false
  | some s => !(s == "")

/-- The quota-gating slice of the invoke-agent `lambda_handler` (the body
parse succeeded and yielded the three optional fields). -/
def invoke_admission (agentId inputText tenantId : Option String)
    (tableConfigured : Bool) (readResult : Except String (Option TenantAgg)) :
    AdmitDecision :=
  if !truthyStr agentId || !truthyStr inputText then AdmitDecision.badRequest
  else if truthyStr tenantId then
    let res := check_token_limit (tenantId.getD "") tableConfigured readResult
    if !res.1 then
      AdmitDecision.limitExceeded (tenantId.getD "") res.2.token_limit res.2.total_tokens
    else AdmitDecision.invokeAgent
  else AdmitDecision.invokeAgent

/-- A dynamically typed Python value as handed to `validate_token_limit`:
`None`, a `bool`, an `int`, a `float` (floats are rationals; the embedding
is over all of ℚ) or a `str`. -/
inductive PyVal
  | none
  | bool (b : Bool)
  | int (n : Int)
  | float (q : ℚ)
  | str (s : String)
deriving DecidableEq, Repr

/-- Truncation toward zero, the behaviour of Python `int()` on a float. -/
def pyTrunc (q : ℚ) : Int := if q < 0 then ⌈q⌉ else ⌊q⌋

/-- The digits of a decimal numeral, as a value: `Option.none` unless the
character list is non-empty and all ASCII digits. -/
def digitsVal (l : List Char) : Option Nat :=
  if l ≠ [] ∧ l.all Char.isDigit then
    some (l.foldl (fun a c => a * 10 + (c.toNat - 48)) 0)
  else Option.none

/-- Python `int()` applied to a string: optional surrounding whitespace, an
optional sign, then decimal digits (the embedding omits `int()`'s underscore
separators and non-ASCII digits). -/
def parsePyInt (s : String) : Option Int :=
  let l := ((s.data.dropWhile Char.isWhitespace).reverse.dropWhile Char.isWhitespace).reverse
  match l with
  | '+' :: rest => (digitsVal rest).map Int.ofNat
  | '-' :: rest => (digitsVal rest).map (fun n => -(n : Int))
  | _ => (digitsVal l).map Int.ofNat

/-- Python `int(value)` for each runtime type: raises (`Option.none`) on
`None` and unparseable strings, truncates floats, maps `True`/`False` to
1/0. -/
def pyToInt : PyVal → Option Int
  | PyVal.none => Option.none
  | PyVal.bool b => some (if b then 1 else 0)
  | PyVal.int n => some n
  | PyVal.float q => some (pyTrunc q)
  | PyVal.str s => parsePyInt s

/-- The `try: int_value = int(value) ...` tail of `validate_token_limit`. -/
def coerceBranch (i : Option Int) : Bool × Option String :=
  match i with
  | some int_value =>
      if int_value ≤ 0 then (false, some "Token limit must be greater than zero")
      else (true, Option.none)
  | Option.none => (false, some "Token limit must be a positive integer")

/-- `validate_token_limit` of the set-tenant-limit handler: `None` is
required-missing, `bool` is rejected before coercion, a float with a
fractional part is rejected, otherwise the value is coerced with `int()`
and must be positive. -/
def validate_token_limit : PyVal → Bool × Option String
  | PyVal.none => (false, some "Token limit is required")
  | PyVal.bool _ => (false, some "Token limit must be a positive integer")
  | PyVal.float q =>
      if q.den ≠ 1 then (false, some "Token limit must be a positive integer, not a decimal")
      else coerceBranch (some (pyTrunc q))
  | PyVal.int n => coerceBranch (some n)
  | PyVal.str s => coerceBranch (parsePyInt s)

/-- The body of the set-tenant-limit success or error response. -/
inductive SetLimitBody
  | err (msg : String)
  | ok (tenantId : String) (tokenLimit : Int)
deriving DecidableEq, Repr

/-- The `update_item` of the set-tenant-limit handler:
`SET token_limit = :limit, tenant_id = :tenant_id` on the row `aggKey t`,
creating the row (with every counter attribute absent, read as zero) when
it does not exist. -/
def set_limit_update (s : AggState) (tenant_id : String) (lim : Int) : AggState :=
  fun k =>
    if k = aggKey tenant_id then
      let row := (s (aggKey tenant_id)).getD zeroRow
      some { row with token_limit := some lim, tenant_id := tenant_id }
    else s k

/-- The `lambda_handler` of set-tenant-limit on a parsed body: validate
`tenantId` and `tokenLimit`, then upsert the limit and report the stored
integer. -/
def set_tenant_limit_handler (s : AggState) (tenantId : Option String) (tokenLimit : PyVal) :
    AggState × Nat × SetLimitBody :=
  if !truthyStr tenantId then (s, 400, SetLimitBody.err "tenantId is required")
  else
    let tenant_id := tenantId.getD ""
    let v := validate_token_limit tokenLimit
    if !v.1 then (s, 400, SetLimitBody.err (v.2.getD ""))
    else
      let token_limit_int := (pyToInt tokenLimit).getD 0
      let s2 := set_limit_update s tenant_id token_limit_int
      (s2, 200, SetLimitBody.ok tenant_id token_limit_int)

/-- One SQS record as seen by the ingestion handler. -/
structure SqsRecord where
  body : String
deriving DecidableEq, Repr

/-- A parsed usage message (the JSON object the ingestion handler stores
with `put_item` and whose `id` and `total_tokens` it logs). -/
structure UsageMessage where
  id : String
  total_tokens : Int
  payload : String
deriving DecidableEq, Repr

/-- The `lambda_handler` of the SQS-to-DynamoDB ingestion stage: for each
record in order, parse the body (`parse` models `json.loads` plus the
logged key accesses) and write it (`writeOk` models `put_item` raising);
the first failure re-raises and aborts the batch, otherwise the stored list
grows and the handler returns the 200 response. -/
def sqs_handler (parse : String → Option UsageMessage) (writeOk : UsageMessage → Bool) :
    List SqsRecord → List UsageMessage → List UsageMessage × Except String (Nat × String)
  | [], store => (store, Except.ok (200, "Success"))
  | r :: rest, store =>
      match parse r.body with
      | Option.none => (store, Except.error "Error processing message")
      | some m =>
          if writeOk m then sqs_handler parse writeOk rest (store ++ [m])
          else (store, Except.error "Error processing message")

/-- A record on which the ingestion handler raises: its body does not parse,
or the write for its parsed message fails. -/
def badRec (parse : String → Option UsageMessage) (writeOk : UsageMessage → Bool)
    (r : SqsRecord) : Prop :=
  parse r.body = Option.none ∨ ∃ m, parse r.body = some m ∧ writeOk m = false

/-- `max_receive_count` of the token-usage queue's dead-letter policy
(`src/stacks/messaging.py`). -/
def usage_queue_max_receive_count : Nat := 3

/-- Modelled from the spec: the delivery substrate's redelivery loop is not
part of the repository (it is the queue service configured in
`src/stacks/messaging.py`); per the spec, a batch is redelivered until an
attempt succeeds, and after `maxReceive` failed attempts it is diverted to
the dead-letter holding area.  Returns `true` when the batch ends up
dead-lettered. -/
def redeliveryToDLQ (maxReceive : Nat) (attemptSucceeds : Nat → Bool) : Bool :=
  !((List.range maxReceive).any attemptSucceeds)

theorem aggKey_inj {a b : String} (h : aggKey a = aggKey b) : a = b := by
  unfold aggKey at h
  have h2 : ("tenant:" ++ a).data = ("tenant:" ++ b).data := by rw [h]
  simp only [String.data_append] at h2
  exact String.ext (List.append_cancel_left h2)

theorem measInc_zero : measInc 0 = 0 := by
  unfold measInc
  simp [TenantSum.zero_def]

theorem measInc_add (a b : TenantSum) : measInc (a + b) = measInc a + measInc b := by
  unfold measInc
  simp only [TenantSum.add_def, Prod.mk_add_mk, Prod.mk.injEq, true_and]
  refine ⟨?_, ?_, ?_⟩ <;> push_cast <;> ring

theorem measOf_applyUpdate_same (s : AggState) (t : String) (agg : TenantSum) :
    measOf ((applyUpdate s t agg) (aggKey t)) = measOf (s (aggKey t)) + measInc agg := by
  unfold applyUpdate measOf measInc
  cases h : s (aggKey t) with
  | none =>
      simp only [h, if_pos rfl, Option.getD_none, Option.getD_some, zeroRow,
        Prod.mk_add_mk, Prod.mk.injEq, TenantSum.add_def, TenantSum.zero_def,
        TenantSum.mk.injEq]
      norm_num
  | some r =>
      simp only [h, if_pos rfl, Option.getD_some, Prod.mk_add_mk, Prod.mk.injEq,
        TenantSum.add_def, TenantSum.mk.injEq]
      norm_num

theorem applyUpdate_other (s : AggState) (t : String) (agg : TenantSum) (k : String)
    (h : k ≠ aggKey t) : (applyUpdate s t agg) k = s k := by
  unfold applyUpdate
  simp [h]

theorem entriesSum_nil (t : String) : entriesSum [] t = 0 := rfl

theorem entriesSum_cons (p : String × TenantSum) (l : List (String × TenantSum)) (t : String) :
    entriesSum (p :: l) t = (if p.1 == t then p.2 else 0) + entriesSum l t := by
  unfold entriesSum
  by_cases h : p.1 == t
  · simp [List.filter_cons, h]
  · simp [List.filter_cons, h]

theorem entriesSum_upsertAdd (l : List (String × TenantSum)) (t : String) (inc : TenantSum) :
    ∀ t' : String,
    entriesSum (upsertAdd l t inc) t' = entriesSum l t' + (if t == t' then inc else 0) := by
  induction l with
  | nil =>
      intro t'
      by_cases h : t = t' <;>
        simp [upsertAdd, entriesSum_cons, entriesSum_nil, h]
  | cons p rest ih =>
      intro t'
      obtain ⟨tp, sp⟩ := p
      unfold upsertAdd
      by_cases h : tp = t
      · subst h
        rw [if_pos (beq_self_eq_true tp), entriesSum_cons, entriesSum_cons]
        split_ifs
        · exact add_right_comm _ _ _
        · simp
      · have hb : (tp == t) = false := by simpa using h
        rw [if_neg (by simp [hb]), entriesSum_cons, entriesSum_cons, ih t']
        abel

theorem sumFor_nil (t : String) : sumFor [] t = 0 := rfl

theorem sumFor_cons (r : StreamRecord) (batch : List StreamRecord) (t : String) :
    sumFor (r :: batch) t
      = (if isInsertB r && (tenantOf r == t) then recInc r else 0) + sumFor batch t := by
  unfold sumFor
  by_cases h : isInsertB r && (tenantOf r == t)
  · simp [List.filter_cons, h]
  · simp [List.filter_cons, h]

theorem sumFor_append (a b : List StreamRecord) (t : String) :
    sumFor (a ++ b) t = sumFor a t + sumFor b t := by
  unfold sumFor
  simp [List.filter_append]

theorem entriesSum_foldl (batch : List StreamRecord) :
    ∀ (acc : List (String × TenantSum)) (t : String),
    entriesSum (batch.foldl processRecord acc) t = entriesSum acc t + sumFor batch t := by
  induction batch with
  | nil =>
      intro acc t
      simp [sumFor_nil]
  | cons r rest ih =>
      intro acc t
      rw [List.foldl_cons, ih, sumFor_cons]
      unfold processRecord
      by_cases h : isInsertB r
      · rw [if_pos h, entriesSum_upsertAdd]
        simp only [h, Bool.true_and]
        abel
      · simp [h]

theorem entriesSum_tenantAggregations (batch : List StreamRecord) (t : String) :
    entriesSum (tenantAggregations batch) t = sumFor batch t := by
  unfold tenantAggregations
  rw [entriesSum_foldl]
  simp [entriesSum_nil]

theorem measOf_applyList (l : List (String × TenantSum)) :
    ∀ (s : AggState) (t : String),
    measOf ((applyList s l) (aggKey t)) = measOf (s (aggKey t)) + measInc (entriesSum l t) := by
  induction l with
  | nil =>
      intro s t
      simp [applyList, entriesSum_nil, measInc_zero]
  | cons p rest ih =>
      intro s t
      obtain ⟨tp, sp⟩ := p
      have step : applyList s ((tp, sp) :: rest) = applyList (applyUpdate s tp sp) rest := rfl
      rw [step, ih, entriesSum_cons]
      by_cases h : tp == t
      · have htp : tp = t := by simpa using h
        subst htp
        rw [measOf_applyUpdate_same]
        simp only [h, ite_true]
        rw [measInc_add]
        abel
      · have hk : aggKey t ≠ aggKey tp := by
          intro hk
          exact absurd (aggKey_inj hk).symm (by simpa using h)
        rw [applyUpdate_other _ _ _ _ hk]
        simp [h]

theorem runUpdates_noFail (l : List (String × TenantSum)) :
    ∀ s : AggState, runUpdates s l noFail = (applyList s l, Option.none) := by
  induction l with
  | nil => intro s; rfl
  | cons p rest ih =>
      intro s
      obtain ⟨tp, sp⟩ := p
      show runUpdates s ((tp, sp) :: rest) noFail = _
      unfold runUpdates noFail
      simp only [Bool.false_eq_true, if_neg, ite_false]
      exact ih (applyUpdate s tp sp)

theorem stream_handler_noFail_fst (s : AggState) (batch : List StreamRecord) :
    (stream_handler s batch noFail).1 = applyList s (tenantAggregations batch) := by
  unfold stream_handler
  rw [runUpdates_noFail]

theorem measOf_stream_handler (s : AggState) (batch : List StreamRecord) (t : String) :
    measOf ((stream_handler s batch noFail).1 (aggKey t))
      = measOf (s (aggKey t)) + measInc (sumFor batch t) := by
  rw [stream_handler_noFail_fst, measOf_applyList, entriesSum_tenantAggregations]

theorem measOf_processBatches (batches : List (List StreamRecord)) :
    ∀ (s : AggState) (t : String),
    measOf ((processBatches s batches) (aggKey t))
      = measOf (s (aggKey t)) + measInc ((batches.map (fun b => sumFor b t)).sum) := by
  induction batches with
  | nil =>
      intro s t
      simp [processBatches, measInc_zero]
  | cons b rest ih =>
      intro s t
      have step : processBatches s (b :: rest) = processBatches ((stream_handler s b noFail).1) rest := rfl
      rw [step, ih, measOf_stream_handler, List.map_cons, List.sum_cons, measInc_add]
      abel

theorem sumFor_flatten (batches : List (List StreamRecord)) (t : String) :
    (batches.map (fun b => sumFor b t)).sum = sumFor batches.flatten t := by
  induction batches with
  | nil => simp [sumFor_nil]
  | cons b rest ih => simp [List.flatten_cons, sumFor_append, ih]

theorem foldl_processRecord_filter (batch : List StreamRecord) :
    ∀ acc : List (String × TenantSum),
    batch.foldl processRecord acc = (batch.filter isInsertB).foldl processRecord acc := by
  induction batch with
  | nil => intro acc; rfl
  | cons r rest ih =>
      intro acc
      by_cases h : isInsertB r
      · simp [List.filter_cons, h, ih]
      · have hr : processRecord acc r = acc := by
          unfold processRecord
          simp [h]
        simp [List.filter_cons, h, ih, hr]

theorem tenantAggregations_filter (batch : List StreamRecord) :
    tenantAggregations batch = tenantAggregations (batch.filter isInsertB) := by
  unfold tenantAggregations
  exact foldl_processRecord_filter batch []

theorem tenantAggregations_no_insert (batch : List StreamRecord)
    (h : ∀ r ∈ batch, isInsertB r = false) : tenantAggregations batch = [] := by
  rw [tenantAggregations_filter]
  have : batch.filter isInsertB = [] := by
    rw [List.filter_eq_nil_iff]
    intro r hr
    simp [h r hr]
  rw [this]
  rfl

theorem runUpdates_split (pre : List (String × TenantSum)) :
    ∀ (s : AggState) (t : String) (agg : TenantSum) (post : List (String × TenantSum))
      (fails : String → Bool),
    (∀ p ∈ pre, fails p.1 = false) → fails t = true →
    runUpdates s (pre ++ (t, agg) :: post) fails = (applyList s pre, some t) := by
  induction pre with
  | nil =>
      intro s t agg post fails _ hf
      simp only [List.nil_append]
      unfold runUpdates
      simp [hf, applyList]
  | cons p rest ih =>
      intro s t agg post fails hpre hf
      obtain ⟨tp, sp⟩ := p
      have hp : fails tp = false := hpre (tp, sp) (List.mem_cons_self _ _)
      have step : applyList s ((tp, sp) :: rest) = applyList (applyUpdate s tp sp) rest := rfl
      simp only [List.cons_append]
      unfold runUpdates
      rw [if_neg (by simp [hp]), step]
      exact ih (applyUpdate s tp sp) t agg post fails
        (fun q hq => hpre q (List.mem_cons_of_mem _ hq)) hf

theorem sqs_handler_fails (records : List SqsRecord) (parse : String → Option UsageMessage)
    (writeOk : UsageMessage → Bool) :
    ∀ store : List UsageMessage,
    (∃ r ∈ records, badRec parse writeOk r) →
    ∃ e, (sqs_handler parse writeOk records store).2 = Except.error e := by
  induction records with
  | nil =>
      intro store h
      obtain ⟨r, hr, _⟩ := h
      exact absurd hr (List.not_mem_nil r)
  | cons r rest ih =>
      intro store h
      have hstep : sqs_handler parse writeOk (r :: rest) store
          = match parse r.body with
            | Option.none => (store, Except.error "Error processing message")
            | some m =>
                if writeOk m then sqs_handler parse writeOk rest (store ++ [m])
                else (store, Except.error "Error processing message") := rfl
      cases hp : parse r.body with
      | none =>
          refine ⟨"Error processing message", ?_⟩
          rw [hstep, hp]
      | some m =>
          rw [hstep, hp]
          show ∃ e, (if writeOk m = true then sqs_handler parse writeOk rest (store ++ [m])
            else (store, Except.error "Error processing message")).2 = Except.error e
          cases hw : writeOk m with
          | false =>
              refine ⟨"Error processing message", ?_⟩
              simp
          | true =>
              rw [if_pos rfl]
              obtain ⟨r', hr', hbad⟩ := h
              rcases List.mem_cons.mp hr' with hr' | hr'
              · subst hr'
                rcases hbad with hbad | ⟨m', hm', hw'⟩
                · rw [hbad] at hp
                  exact absurd hp (by simp)
                · rw [hm'] at hp
                  have hmm : m' = m := by injection hp
                  subst hmm
                  rw [hw'] at hw
                  exact absurd hw (by simp)
              · exact ih (store ++ [m]) ⟨r', hr', hbad⟩

/-- First scenario event of the spec: tenant t1, 60/40/100 tokens. -/
def ev1 : StreamRecord :=
  ⟨EventName.INSERT, ⟨"a", "t0", some "t1", 60, 40, 100, ""⟩⟩

/-- Second scenario event of the spec: tenant t1, 20/30/50 tokens. -/
def ev2 : StreamRecord :=
  ⟨EventName.INSERT, ⟨"b", "t1", some "t1", 20, 30, 50, ""⟩⟩

/-- An event for a second tenant t2. -/
def ev3 : StreamRecord :=
  ⟨EventName.INSERT, ⟨"c", "t2", some "t2", 20, 30, 50, ""⟩⟩

/-- A MODIFY stream record. -/
def evModify : StreamRecord :=
  ⟨EventName.MODIFY, ⟨"a", "t0", some "t1", 60, 40, 100, ""⟩⟩

/-- A single-token usage event (1 input token, 1 output token). -/
def evUnit : StreamRecord :=
  ⟨EventName.INSERT, ⟨"u", "t", some "t1", 1, 1, 1, ""⟩⟩

/-- C1: the per-tenant increment the Aggregator applies to the
TenantAggregate counters (`total_tokens`, `input_tokens`, `output_tokens`,
`request_count`) equals the componentwise sum over all INSERT records of
that tenant in the batch; starting from an empty table, the final
`total_tokens` equals the sum over all events of all batches (any
grouping), and processing the batches in any order yields the same
counters and costs. -/
theorem aggregator_per_tenant_sums :
    (∀ (s : AggState) (batch : List StreamRecord) (t : String),
      measOf ((stream_handler s batch noFail).1 (aggKey t))
        = measOf (s (aggKey t)) + measInc (sumFor batch t)) ∧
    (∀ (batches : List (List StreamRecord)) (t : String),
      (measOf ((processBatches emptyState batches) (aggKey t))).1.total_tokens
        = (sumFor batches.flatten t).total_tokens) ∧
    (∀ (batches batches' : List (List StreamRecord)) (t : String),
      batches.Perm batches' →
      measOf ((processBatches emptyState batches) (aggKey t))
        = measOf ((processBatches emptyState batches') (aggKey t))) := by
  refine ⟨fun s batch t => measOf_stream_handler s batch t, ?_, ?_⟩
  · intro batches t
    rw [measOf_processBatches]
    have h0 : measOf (emptyState (aggKey t)) = 0 := rfl
    rw [h0, zero_add, sumFor_flatten]
    rfl
  · intro batches batches' t h
    rw [measOf_processBatches, measOf_processBatches,
      (h.map (fun b => sumFor b t)).sum_eq]

/-- Witness for C1: swapping the two scenario batches leaves tenant t1's
aggregate unchanged, and its accumulated `total_tokens` is 150. -/
theorem aggregator_per_tenant_sums_witness :
    measOf ((processBatches emptyState [[ev1], [ev2]]) (aggKey "t1"))
      = measOf ((processBatches emptyState [[ev2], [ev1]]) (aggKey "t1")) ∧
    (measOf ((processBatches emptyState [[ev1], [ev2]]) (aggKey "t1"))).1.total_tokens = 150 :=
  ⟨aggregator_per_tenant_sums.2.2 [[ev1], [ev2]] [[ev2], [ev1]] "t1"
    (List.Perm.swap [ev2] [ev1] []), by decide⟩

/-- A TenantAggregate row with a given usage and limit and no other data. -/
def mkItem (usage lim : Int) : TenantAgg :=
  { zeroRow with total_tokens := usage, token_limit := some lim }

/-- C2: the Quota Gate allows when no row exists, allows when the row has
no `token_limit`, and otherwise allows exactly when
`total_tokens < token_limit`; in particular usage equal to the limit is
denied and usage `limit - 1` is allowed. -/
theorem quota_gate_decision :
    (∀ tid : String,
      check_token_limit tid true (Except.ok Option.none) = (true, emptyUsage)) ∧
    (∀ (tid : String) (item : TenantAgg), item.token_limit = Option.none →
      (check_token_limit tid true (Except.ok (some item))).1 = true) ∧
    (∀ (tid : String) (item : TenantAgg) (lim : Int), item.token_limit = some lim →
      (check_token_limit tid true (Except.ok (some item))).1
        = decide (item.total_tokens < lim)) ∧
    (∀ (tid : String) (lim : Int),
      (check_token_limit tid true (Except.ok (some (mkItem lim lim)))).1 = false ∧
      (check_token_limit tid true (Except.ok (some (mkItem (lim - 1) lim)))).1 = true) := by
  have hmain : ∀ (tid : String) (item : TenantAgg) (lim : Int), item.token_limit = some lim →
      (check_token_limit tid true (Except.ok (some item))).1
        = decide (item.total_tokens < lim) := by
    intro tid item lim h
    have hstep : check_token_limit tid true (Except.ok (some item))
        = (match item.token_limit with
           | Option.none => (true, { emptyUsage with total_tokens := some item.total_tokens })
           | some token_limit =>
               if item.total_tokens ≥ token_limit then
                 (false, ⟨some tid, some item.total_tokens, some token_limit⟩)
               else (true, ⟨some tid, some item.total_tokens, some token_limit⟩)) := rfl
    rw [hstep, h]
    by_cases hge : item.total_tokens ≥ lim
    · have hlt : ¬ item.total_tokens < lim := not_lt.mpr hge
      simp [hge, hlt]
    · have hlt : item.total_tokens < lim := lt_of_not_ge hge
      simp [hge, hlt]
  refine ⟨fun tid => rfl, ?_, hmain, ?_⟩
  · intro tid item h
    have hstep : check_token_limit tid true (Except.ok (some item))
        = (match item.token_limit with
           | Option.none => (true, { emptyUsage with total_tokens := some item.total_tokens })
           | some token_limit =>
               if item.total_tokens ≥ token_limit then
                 (false, ⟨some tid, some item.total_tokens, some token_limit⟩)
               else (true, ⟨some tid, some item.total_tokens, some token_limit⟩)) := rfl
    rw [hstep, h]
  · intro tid lim
    constructor
    · rw [hmain tid (mkItem lim lim) lim rfl]
      simp [mkItem, zeroRow]
    · rw [hmain tid (mkItem (lim - 1) lim) lim rfl]
      simp [mkItem, zeroRow]

/-- Witness for C2: with usage 150 and limit 150 the gate denies. -/
theorem quota_gate_decision_witness :
    (check_token_limit "t1" true (Except.ok (some (mkItem 150 150)))).1
      = decide ((150 : Int) < 150) ∧
    (check_token_limit "t1" true (Except.ok (some (mkItem 150 150)))).1 = false :=
  ⟨quota_gate_decision.2.2.1 "t1" (mkItem 150 150) 150 rfl, by decide⟩

/-- C3: `validate_token_limit` accepts exactly the values that coerce to a
positive integer: an integer is valid iff it is positive, booleans are
always invalid, floats with a fractional part are invalid with the
"not a decimal" message, strings parsing as a positive integer are valid,
and a coerced integer that is not positive gets the "greater than zero"
message. -/
theorem validate_token_limit_correct :
    (∀ n : Int, (validate_token_limit (PyVal.int n)).1 = decide (0 < n)) ∧
    (∀ b : Bool, validate_token_limit (PyVal.bool b)
      = (false, some "Token limit must be a positive integer")) ∧
    (∀ q : ℚ, q.den ≠ 1 → validate_token_limit (PyVal.float q)
      = (false, some "Token limit must be a positive integer, not a decimal")) ∧
    (∀ (s : String) (n : Int), parsePyInt s = some n → 0 < n →
      validate_token_limit (PyVal.str s) = (true, Option.none)) ∧
    (∀ n : Int, n ≤ 0 → validate_token_limit (PyVal.int n)
      = (false, some "Token limit must be greater than zero")) := by
  refine ⟨?_, fun b => rfl, ?_, ?_, ?_⟩
  · intro n
    show (coerceBranch (some n)).1 = decide (0 < n)
    unfold coerceBranch
    by_cases h : n ≤ 0
    · have h2 : ¬ 0 < n := not_lt.mpr h
      simp [h, h2]
    · have h2 : 0 < n := lt_of_not_ge h
      simp [h, h2]
  · intro q h
    show (if q.den ≠ 1 then _ else _) = _
    rw [if_pos h]
  · intro s n hp hpos
    show coerceBranch (parsePyInt s) = _
    rw [hp]
    have hc : coerceBranch (some n)
        = if n ≤ 0 then (false, some "Token limit must be greater than zero")
          else (true, Option.none) := rfl
    rw [hc, if_neg (not_le.mpr hpos)]
  · intro n h
    show coerceBranch (some n) = _
    have hc : coerceBranch (some n)
        = if n ≤ 0 then (false, some "Token limit must be greater than zero")
          else (true, Option.none) := rfl
    rw [hc, if_pos h]

/-- The fractional float 100.5 as an exact rational. -/
def qFrac : ℚ := Rat.mk' 201 2 (by decide) (by decide)

/-- Witness for C3: 100.5 is rejected as a decimal, the string "100" is
accepted, and 0 is rejected with the greater-than-zero message. -/
theorem validate_token_limit_correct_witness :
    validate_token_limit (PyVal.float qFrac)
      = (false, some "Token limit must be a positive integer, not a decimal") ∧
    validate_token_limit (PyVal.str "100") = (true, Option.none) ∧
    validate_token_limit (PyVal.int 0)
      = (false, some "Token limit must be greater than zero") :=
  ⟨validate_token_limit_correct.2.2.1 qFrac (by decide),
   validate_token_limit_correct.2.2.2.1 "100" 100 (by decide) (by decide),
   validate_token_limit_correct.2.2.2.2 0 (by decide)⟩

/-- C4: when the aggregate-row read raises, `check_token_limit` returns
allowed with empty usage info, and the invoke-agent handler admits the
request rather than surfacing an error. -/
theorem quota_gate_fail_open :
    (∀ tid msg : String,
      check_token_limit tid true (Except.error msg) = (true, emptyUsage)) ∧
    (∀ aid it tid msg : String, aid ≠ "" → it ≠ "" →
      invoke_admission (some aid) (some it) (some tid) true (Except.error msg)
        = AdmitDecision.invokeAgent) := by
  refine ⟨fun tid msg => rfl, ?_⟩
  intro aid it tid msg ha hi
  unfold invoke_admission
  rw [show truthyStr (some aid) = true from by simp [truthyStr, ha],
    show truthyStr (some it) = true from by simp [truthyStr, hi]]
  by_cases ht : tid = ""
  · simp [truthyStr, ht]
  · simp [truthyStr, ht, check_token_limit]

/-- Witness for C4: a failing read admits the request for tenant t1. -/
theorem quota_gate_fail_open_witness :
    check_token_limit "t1" true (Except.error "boom") = (true, emptyUsage) ∧
    invoke_admission (some "agent") (some "hi") (some "t1") true (Except.error "boom")
      = AdmitDecision.invokeAgent :=
  ⟨quota_gate_fail_open.1 "t1" "boom",
   quota_gate_fail_open.2 "agent" "hi" "t1" "boom" (by decide) (by decide)⟩

/-- C10: with a missing or empty `tenantId` the quota check is skipped and
the request admitted regardless of table contents, and with no aggregation
table configured `check_token_limit` allows with empty usage info. -/
theorem quota_skip_without_tenant :
    (∀ (aid it : String) (tc : Bool) (rr : Except String (Option TenantAgg)),
      aid ≠ "" → it ≠ "" →
      invoke_admission (some aid) (some it) Option.none tc rr = AdmitDecision.invokeAgent ∧
      invoke_admission (some aid) (some it) (some "") tc rr = AdmitDecision.invokeAgent) ∧
    (∀ (tid : String) (rr : Except String (Option TenantAgg)),
      check_token_limit tid false rr = (true, emptyUsage)) := by
  refine ⟨?_, fun tid rr => rfl⟩
  intro aid it tc rr ha hi
  constructor <;>
  · unfold invoke_admission
    rw [show truthyStr (some aid) = true from by simp [truthyStr, ha],
      show truthyStr (some it) = true from by simp [truthyStr, hi]]
    simp [truthyStr]

/-- Witness for C10: a request without tenantId is admitted even though the
table holds an exhausted tenant. -/
theorem quota_skip_without_tenant_witness :
    invoke_admission (some "agent") (some "hi") Option.none true
      (Except.ok (some (mkItem 150 150))) = AdmitDecision.invokeAgent ∧
    check_token_limit "t1" false (Except.ok (some (mkItem 150 150))) = (true, emptyUsage) :=
  ⟨(quota_skip_without_tenant.1 "agent" "hi" true (Except.ok (some (mkItem 150 150)))
      (by decide) (by decide)).1,
   quota_skip_without_tenant.2 "t1" (Except.ok (some (mkItem 150 150)))⟩

theorem measInc_closed (agg : TenantSum) :
    measInc agg = (agg, (agg.input_tokens : ℚ) * 3 / 1000000,
      (agg.output_tokens : ℚ) * 15 / 1000000,
      (agg.input_tokens : ℚ) * 3 / 1000000 + (agg.output_tokens : ℚ) * 15 / 1000000) := by
  unfold measInc
  simp only [Prod.mk.injEq, true_and]
  refine ⟨?_, ?_, ?_⟩ <;> ring

theorem processBatches_append (s : AggState) (xs ys : List (List StreamRecord)) :
    processBatches s (xs ++ ys) = processBatches (processBatches s xs) ys := by
  unfold processBatches
  rw [List.foldl_append]

/-- C5: the cost increments are the exact rational values
`input_tokens * 0.003 / 1000` and `output_tokens * 0.015 / 1000`, their sum
is the total-cost increment, and accumulating n single-token increments
yields exactly the closed-form value with no drift. -/
theorem aggregator_cost_exact :
    (∀ (s : AggState) (t : String) (agg : TenantSum),
      measOf ((applyUpdate s t agg) (aggKey t))
        = measOf (s (aggKey t))
          + (agg, (agg.input_tokens : ℚ) * 3 / 1000000,
             (agg.output_tokens : ℚ) * 15 / 1000000,
             (agg.input_tokens : ℚ) * 3 / 1000000
               + (agg.output_tokens : ℚ) * 15 / 1000000)) ∧
    (∀ n : ℕ,
      measOf ((processBatches emptyState (List.replicate n [evUnit])) (aggKey "t1"))
        = (⟨(n : Int), (n : Int), (n : Int), (n : Int)⟩,
            (n : ℚ) * 3 / 1000000, (n : ℚ) * 15 / 1000000, (n : ℚ) * 18 / 1000000)) := by
  refine ⟨fun s t agg => by rw [measOf_applyUpdate_same, measInc_closed], ?_⟩
  intro n
  induction n with
  | zero =>
      show measOf (emptyState (aggKey "t1")) = _
      unfold measOf emptyState
      simp only [Prod.mk.injEq, Nat.cast_zero, TenantSum.zero_def, TenantSum.mk.injEq]
      norm_num
  | succ k ih =>
      rw [List.replicate_succ', processBatches_append]
      have hsingle : processBatches (processBatches emptyState (List.replicate k [evUnit])) [[evUnit]]
          = (stream_handler (processBatches emptyState (List.replicate k [evUnit]))
              [evUnit] noFail).1 := rfl
      rw [hsingle, measOf_stream_handler, ih]
      have hsum : sumFor [evUnit] "t1" = ⟨1, 1, 1, 1⟩ := by decide
      rw [hsum, measInc_closed]
      simp only [Prod.mk_add_mk, Prod.mk.injEq, TenantSum.add_def, TenantSum.mk.injEq]
      refine ⟨⟨?_, ?_, ?_, ?_⟩, ?_, ?_, ?_⟩ <;> push_cast <;> ring

theorem stream_handler_fst (s : AggState) (batch : List StreamRecord)
    (fails : String → Bool) :
    (stream_handler s batch fails).1 = (runUpdates s (tenantAggregations batch) fails).1 := by
  unfold stream_handler
  rcases h : runUpdates s (tenantAggregations batch) fails with ⟨s2, e⟩
  cases e <;> rfl

/-- C6: MODIFY and REMOVE records contribute nothing: the in-memory sums
and the resulting table state are the same as for the INSERT-only
sub-batch, and a batch with no INSERT records leaves the table untouched
and returns the 200 response. -/
theorem aggregator_insert_only :
    (∀ batch : List StreamRecord,
      tenantAggregations batch = tenantAggregations (batch.filter isInsertB)) ∧
    (∀ (s : AggState) (batch : List StreamRecord) (fails : String → Bool),
      (stream_handler s batch fails).1
        = (stream_handler s (batch.filter isInsertB) fails).1) ∧
    (∀ (s : AggState) (batch : List StreamRecord) (fails : String → Bool),
      (∀ r ∈ batch, isInsertB r = false) →
      (stream_handler s batch fails).1 = s ∧
      ∃ msg, (stream_handler s batch fails).2 = Except.ok (200, msg)) := by
  refine ⟨tenantAggregations_filter, ?_, ?_⟩
  · intro s batch fails
    rw [stream_handler_fst, stream_handler_fst, ← tenantAggregations_filter]
  · intro s batch fails h
    have ha : tenantAggregations batch = [] := tenantAggregations_no_insert batch h
    constructor
    · rw [stream_handler_fst, ha]
      rfl
    · unfold stream_handler
      rw [ha]
      exact ⟨_, rfl⟩

/-- Witness for C6: a batch holding one MODIFY record changes nothing and
succeeds. -/
theorem aggregator_insert_only_witness :
    (stream_handler emptyState [evModify] noFail).1 = emptyState ∧
    ∃ msg, (stream_handler emptyState [evModify] noFail).2 = Except.ok (200, msg) :=
  aggregator_insert_only.2.2 emptyState [evModify] noFail (by decide)

/-- C7: a parse or write failure for any message makes the ingestion
handler raise, failing the whole batch; the queue's dead-letter policy is
configured with `max_receive_count = 3`, and a batch that fails every
allowed attempt is diverted to the DLQ. -/
theorem ingestion_batch_failure :
    (∀ (parse : String → Option UsageMessage) (writeOk : UsageMessage → Bool)
       (records : List SqsRecord) (store : List UsageMessage),
      (∃ r ∈ records, badRec parse writeOk r) →
      ∃ e, (sqs_handler parse writeOk records store).2 = Except.error e) ∧
    usage_queue_max_receive_count = 3 ∧
    (∀ attemptSucceeds : Nat → Bool,
      (∀ i, i < usage_queue_max_receive_count → attemptSucceeds i = false) →
      redeliveryToDLQ usage_queue_max_receive_count attemptSucceeds = true) := by
  refine ⟨fun parse writeOk records store h => sqs_handler_fails records parse writeOk store h,
    rfl, ?_⟩
  intro f h
  unfold redeliveryToDLQ
  have hany : (List.range usage_queue_max_receive_count).any f = false := by
    rw [List.any_eq_false]
    intro i hi
    simp [h i (List.mem_range.mp hi)]
  rw [hany]
  rfl

/-- Witness for C7: a one-record batch whose body does not parse errors,
and three failed attempts land in the DLQ. -/
theorem ingestion_batch_failure_witness :
    (∃ e, (sqs_handler (fun _ => Option.none) (fun _ => true)
      [⟨"not json"⟩] []).2 = Except.error e) ∧
    redeliveryToDLQ usage_queue_max_receive_count (fun _ => false) = true :=
  ⟨ingestion_batch_failure.1 (fun _ => Option.none) (fun _ => true) [⟨"not json"⟩] []
      ⟨⟨"not json"⟩, by simp, Or.inl rfl⟩,
   ingestion_batch_failure.2.2 (fun _ => false) (fun i _ => rfl)⟩

/-- The update for tenant t2 raises; every other update succeeds. -/
def cexFails : String → Bool := fun t => t == "t2"

/-- C8 counterexample: on the batch [ev1 (tenant t1), ev3 (tenant t2)] with
the t2 update failing, the handler does propagate an error, but tenant
t1's aggregate HAS been updated — the table is not unchanged on error, so
per-tenant partial success persists. -/
theorem aggregator_partial_update_counterexample :
    (∃ e, (stream_handler emptyState [ev1, ev3] cexFails).2 = Except.error e) ∧
    (stream_handler emptyState [ev1, ev3] cexFails).1 (aggKey "t1")
      ≠ emptyState (aggKey "t1") := by
  refine ⟨⟨"t2", rfl⟩, fun h => ?_⟩
  exact absurd (congrArg Option.isSome h) (by decide)

/-- C8 (amended): when the update for a tenant fails, the error propagates
and aborts the batch (so the substrate can redeliver) and no tenant after
the failing one is updated, but tenants whose updates completed before the
failure remain updated. -/
theorem aggregator_abort_on_failure :
    ∀ (s : AggState) (batch : List StreamRecord) (fails : String → Bool)
      (pre : List (String × TenantSum)) (t : String) (agg : TenantSum)
      (post : List (String × TenantSum)),
    tenantAggregations batch = pre ++ (t, agg) :: post →
    (∀ p ∈ pre, fails p.1 = false) → fails t = true →
    (stream_handler s batch fails).2 = Except.error t ∧
    (stream_handler s batch fails).1 = applyList s pre := by
  intro s batch fails pre t agg post hagg hpre hf
  unfold stream_handler
  rw [hagg, runUpdates_split pre s t agg post fails hpre hf]
  exact ⟨rfl, rfl⟩

/-- Witness for C8 (amended): on the two-tenant batch with t2 failing, the
handler errors with t2 and the state is exactly the t1 update applied. -/
theorem aggregator_abort_on_failure_witness :
    (stream_handler emptyState [ev1, ev3] cexFails).2 = Except.error "t2" ∧
    (stream_handler emptyState [ev1, ev3] cexFails).1
      = applyList emptyState [("t1", ⟨60, 40, 100, 1⟩)] :=
  aggregator_abort_on_failure emptyState [ev1, ev3] cexFails
    [("t1", ⟨60, 40, 100, 1⟩)] "t2" ⟨20, 30, 50, 1⟩ [] (by decide) (by decide) rfl

theorem set_limit_update_same (s : AggState) (tid : String) (n : Int) :
    set_limit_update s tid n (aggKey tid)
      = some { (s (aggKey tid)).getD zeroRow with
          token_limit := some n, tenant_id := tid } := by
  unfold set_limit_update
  simp

theorem set_limit_update_other (s : AggState) (tid : String) (n : Int) (k : String)
    (hk : k ≠ aggKey tid) : set_limit_update s tid n k = s k := by
  unfold set_limit_update
  simp [hk]

/-- C9: on valid input the set-tenant-limit handler upserts only
`token_limit` and `tenant_id` on the tenant's row (creating it if absent),
leaves every counter and cost field unchanged, touches no other row, and
reports the normalized stored integer in the 200 response. -/
theorem set_limit_frame :
    ∀ (s : AggState) (tid : String) (v : PyVal) (n : Int),
    tid ≠ "" → (validate_token_limit v).1 = true → pyToInt v = some n →
    (set_tenant_limit_handler s (some tid) v).2.1 = 200 ∧
    (set_tenant_limit_handler s (some tid) v).2.2 = SetLimitBody.ok tid n ∧
    ((set_tenant_limit_handler s (some tid) v).1 (aggKey tid)).map TenantAgg.token_limit
      = some (some n) ∧
    ((set_tenant_limit_handler s (some tid) v).1 (aggKey tid)).map TenantAgg.tenant_id
      = some tid ∧
    (∀ k, k ≠ aggKey tid → (set_tenant_limit_handler s (some tid) v).1 k = s k) ∧
    measOf ((set_tenant_limit_handler s (some tid) v).1 (aggKey tid))
      = measOf (s (aggKey tid)) := by
  intro s tid v n htid hv hn
  have hhandler : set_tenant_limit_handler s (some tid) v
      = (set_limit_update s tid n, 200, SetLimitBody.ok tid n) := by
    unfold set_tenant_limit_handler
    simp [truthyStr, htid, hv, hn]
  rw [hhandler]
  refine ⟨rfl, rfl, ?_, ?_, ?_, ?_⟩
  · rw [show (set_limit_update s tid n, 200, SetLimitBody.ok tid n).1 = set_limit_update s tid n
      from rfl, set_limit_update_same]
    rfl
  · rw [show (set_limit_update s tid n, 200, SetLimitBody.ok tid n).1 = set_limit_update s tid n
      from rfl, set_limit_update_same]
    rfl
  · intro k hk
    exact set_limit_update_other s tid n k hk
  · rw [show (set_limit_update s tid n, 200, SetLimitBody.ok tid n).1 = set_limit_update s tid n
      from rfl, set_limit_update_same]
    cases hrow : s (aggKey tid) with
    | none => rfl
    | some r => rfl

/-- Witness for C9: setting limit 150 for t1 on the empty table stores the
limit and leaves the (absent, all-zero) counters untouched. -/
theorem set_limit_frame_witness :
    (set_tenant_limit_handler emptyState (some "t1") (PyVal.int 150)).2.2
      = SetLimitBody.ok "t1" 150 ∧
    measOf ((set_tenant_limit_handler emptyState (some "t1") (PyVal.int 150)).1 (aggKey "t1"))
      = measOf (emptyState (aggKey "t1")) :=
  ⟨(set_limit_frame emptyState "t1" (PyVal.int 150) 150 (by decide) (by decide) rfl).2.1,
   (set_limit_frame emptyState "t1" (PyVal.int 150) 150
     (by decide) (by decide) rfl).2.2.2.2.2⟩
